import Mathlib

set_option linter.unusedVariables false

/-! Shallow embedding of the augmentation processors in
src/paz/processors/image2.py and of the dataset loader in
src/examples/hand_pose_estimation/hand_keypoints.py.

Pixel values are rationals (exact arithmetic in place of floats).
Random draws made by the source through numpy are explicit parameters
of the embedded functions, constrained by hypotheses that state the
contract of the sampling primitive that produced them. -/

/-- ImageBuffer: an H by W by C numeric array. `data y x c` is the value
at row y, column x, channel c. -/
structure Image where
  H : Nat
  W : Nat
  C : Nat
  data : Nat → Nat → Nat → ℚ

/-- NormalizeImage.call: returns image / 255.0. -/
def normalizeImage (image : Image) : Image :=
  { image with data := fun y x c => image.data y x c / 255 }

/-- DenormalizeImage.call: returns image * 255.0. -/
def denormalizeImage (image : Image) : Image :=
  { image with data := fun y x c => image.data y x c * 255 }

/-- Error message raised by AddPlainBackground.call and
AddCroppedBackground.call when the input has no alpha channel. -/
def alphaErrorMsg : String := "Provided image does not contain alpha mask."

/-- AddPlainBackground.call. `background_color` is `self.background_color`
(`none` models Python None); `rand_color` is the draw
`random.randint(0, 256, 3)` made in the None branch, one value per
channel. The source splits the input into a 3-channel foreground and a
1-channel alpha, divides alpha by 255, builds the background plane, and
returns `alpha * foreground + background`; only the None branch
multiplies the background by `(1.0 - alpha)`. -/
def addPlainBackground (background_color : Option (Nat → ℚ)) (rand_color : Nat → ℚ)
    (image : Image) : Except String Image :=
  if image.C ≠ 4 then .error alphaErrorMsg
  else .ok
    { H := image.H, W := image.W, C := 3,
      data := fun y x c =>
        let alpha := image.data y x 3 / 255
        let background :=
          match background_color with
          | none => (1 - alpha) * rand_color c
          | some color => color c
        alpha * image.data y x c + background }

/-- Composite formula stated by the spec (section 4.6): output equals
alpha times foreground plus (1 - alpha) times background, with alpha
normalized to the unit interval. Written from the words of the spec for
comparison with `addPlainBackground`. -/
def specAlphaComposite (background : Nat → ℚ) (image : Image) (y x c : Nat) : ℚ :=
  let alpha := image.data y x 3 / 255
  alpha * image.data y x c + (1 - alpha) * background c

/-- Scenario image from the spec: 2 by 2, RGB foreground (100, 50, 25)
everywhere, alpha channel [[255, 0], [128, 255]]. -/
def c1img : Image :=
  { H := 2, W := 2, C := 4,
    data := fun y x c =>
      if c = 3 then
        (if y = 0 ∧ x = 0 then 255
         else if y = 0 ∧ x = 1 then 0
         else if y = 1 ∧ x = 0 then 128
         else 255)
      else (if c = 0 then 100 else if c = 1 then 50 else 25) }

/-- Configured background color (10, 20, 30) from the spec scenario. -/
def c1bc : Nat → ℚ := fun c => if c = 0 then 10 else if c = 1 then 20 else 30

/-- Unused random color draw for the configured-color scenario. -/
def c1rc : Nat → ℚ := fun _ => 0

/-- Collaborator ops.convert_image with flag ops.BGR2RGB. Modelled from
the spec (section 6, convertColorSpace): swapping the first and third
color channels. -/
def convertBGR2RGB (image : Image) : Image :=
  { image with data := fun y x c =>
      image.data y x (if c = 0 then 2 else if c = 2 then 0 else c) }

/-- AddCroppedBackground._crop_image. `x_min` and `y_min` are the draws
`np.random.randint(0, W - box_size)` and `np.random.randint(0, H - box_size)`.
Returns None when the box size reaches either dimension of the
background image; the second guard of the source (`y_min > y_max or
x_min > x_max`) is kept even though it can never fire. -/
def crop_image (box_size x_min y_min : Nat) (background_image : Image) : Option Image :=
  if box_size ≥ background_image.H ∨ box_size ≥ background_image.W then none
  else
    let x_max := x_min + box_size
    let y_max := y_min + box_size
    if y_min > y_max ∨ x_min > x_max then none
    else some
      { H := y_max - y_min, W := x_max - x_min, C := background_image.C,
        data := fun y x c => background_image.data (y_min + y) (x_min + x) c }

/-- Error message of a numpy elementwise operation on arrays whose
shapes do not broadcast (the real message also prints the shapes). -/
def broadcastErrorMsg : String :=
  "ValueError: operands could not be broadcast together"

/-- Numpy broadcast of one axis pair: equal sizes broadcast to
themselves, a size-1 axis broadcasts to the other size, anything else
is incompatible. -/
def broadcastDim (a b : Nat) : Option Nat :=
  if a = b then some a
  else if a = 1 then some b
  else if b = 1 then some a
  else none

/-- Index into an operand axis of size n under numpy broadcasting: an
axis of size 1 is always read at 0. -/
def bcIndex (n i : Nat) : Nat := if n = 1 then 0 else i

/-- Numpy elementwise binary operation over two 3-axis arrays with
broadcasting; raises ValueError when some axis pair is incompatible. -/
def broadcastOp (f : ℚ → ℚ → ℚ) (A B : Image) : Except String Image :=
  match broadcastDim A.H B.H, broadcastDim A.W B.W, broadcastDim A.C B.C with
  | some dH, some dW, some dC =>
    .ok { H := dH, W := dW, C := dC,
          data := fun y x c =>
            f (A.data (bcIndex A.H y) (bcIndex A.W x) (bcIndex A.C c))
              (B.data (bcIndex B.H y) (bcIndex B.W x) (bcIndex B.C c)) }
  | _, _, _ => .error broadcastErrorMsg

/-- The foreground part of np.split(image, [3], -1): the first three
channels, an (H, W, 3) array. -/
def foregroundOf (image : Image) : Image :=
  { H := image.H, W := image.W, C := 3,
    data := fun y x c => image.data y x c }

/-- The alpha part of np.split(image, [3], -1) after alpha = alpha /
255: an (H, W, 1) array. -/
def alphaOf (image : Image) : Image :=
  { H := image.H, W := image.W, C := 1,
    data := fun y x _ => image.data y x 3 / 255 }

/-- The (H, W, 1) array 1.0 - alpha. -/
def oneMinusAlphaOf (image : Image) : Image :=
  { H := image.H, W := image.W, C := 1,
    data := fun y x _ => 1 - image.data y x 3 / 255 }

/-- Lines 260-262 of AddCroppedBackground.call:
background = (1.0 - alpha) * background.astype(float) - astype is a
noop over rationals - then foreground = alpha * foreground, then
image = foreground + background, each a numpy broadcasting operation
that raises ValueError on incompatible shapes (in particular when a
cropped patch of dimensions differing from the input, and not 1, is
the background). -/
def compositeOverBackground (image background1 : Image) : Except String Image := do
  let background2 ← broadcastOp (fun a b => a * b) (oneMinusAlphaOf image) background1
  let foreground2 ← broadcastOp (fun a b => a * b) (alphaOf image) (foregroundOf image)
  let composite ← broadcastOp (fun a b => a + b) foreground2 background2
  .ok composite

/-- AddCroppedBackground.call. `image_filepaths` is the pool of
background images already loaded (ops.load_image composed with the
configured paths), `rand_arg` is the draw
`random.randint(0, len(image_filepaths))`, `rand_color` the fallback
draw `random.randint(0, 256, 3)`, `rgb_model` is true when
`self.color_model == 'RGB'`. Out-of-range `rand_arg` models the
IndexError / ValueError path of numpy randint on an empty pool; the
compositing is the broadcasting computation of lines 260-262. -/
def addCroppedBackground (image_filepaths : List Image) (box_size : Nat)
    (rgb_model : Bool) (rand_arg x_min y_min : Nat) (rand_color : Nat → ℚ)
    (image : Image) : Except String Image :=
  if image.C ≠ 4 then .error alphaErrorMsg
  else
    match image_filepaths[rand_arg]? with
    | none => .error "ValueError: low >= high"
    | some selected =>
      let background0 := if rgb_model then convertBGR2RGB selected else selected
      let background1 : Image :=
        match crop_image box_size x_min y_min background0 with
        | none => { H := image.H, W := image.W, C := 3,
                    data := fun _ _ c => rand_color c }
        | some patch => patch
      compositeOverBackground image background1

/-- C9: for every image array, DenormalizeImage.call after
NormalizeImage.call returns the original array: the two operations
divide by 255.0 and multiply by 255.0 respectively, and over exact
arithmetic the round trip is the identity. -/
theorem c9_normalize_denormalize_roundtrip (image : Image) :
    denormalizeImage (normalizeImage image) = image := by
  cases image with
  | mk H W C data =>
    simp only [normalizeImage, denormalizeImage]
    congr 1
    funext y x c
    exact div_mul_cancel₀ (data y x c) (by norm_num)

/-- C1: on the spec scenario (2 by 2 image, alpha channel
[[255, 0], [128, 255]], configured background color (10, 20, 30)) the
code output at the top-left pixel (alpha 255) is foreground plus the
full background color, 100 + 10 = 110, while the alpha-weighted blend
the claim states is 100 (the foreground exactly): the configured-color
branch of AddPlainBackground.call never multiplies the background by
(1 - alpha), so the claim fails for that configuration. -/
theorem c1_configured_color_not_alpha_blend :
    ∃ out, addPlainBackground (some c1bc) c1rc c1img = .ok out
      ∧ out.data 0 0 0 = 110
      ∧ specAlphaComposite c1bc c1img 0 0 0 = 100
      ∧ (110 : ℚ) ≠ 100 := by
  refine ⟨_, rfl, ?_, ?_, by norm_num⟩
  · show ((255 : ℚ) / 255) * 100 + 10 = 110
    norm_num
  · show ((255 : ℚ) / 255) * 100 + (1 - 255 / 255) * 10 = 100
    norm_num

/-- Helper: an axis broadcasts with itself to itself. -/
theorem broadcastDim_self (n : Nat) : broadcastDim n n = some n := by
  unfold broadcastDim
  rw [if_pos rfl]

/-- Helper: a size-1 axis broadcasts to the other operand. -/
theorem broadcastDim_one_left (n : Nat) : broadcastDim 1 n = some n := by
  unfold broadcastDim
  by_cases h : (1 : Nat) = n
  · rw [if_pos h, h]
  · rw [if_neg h, if_pos rfl]

/-- Helper: evaluation of broadcastOp once each axis pair broadcasts. -/
theorem broadcastOp_eval (f : ℚ → ℚ → ℚ) (A B : Image) (dH dW dC : Nat)
    (hH : broadcastDim A.H B.H = some dH) (hW : broadcastDim A.W B.W = some dW)
    (hC : broadcastDim A.C B.C = some dC) :
    broadcastOp f A B = .ok
      { H := dH, W := dW, C := dC,
        data := fun y x c =>
          f (A.data (bcIndex A.H y) (bcIndex A.W x) (bcIndex A.C c))
            (B.data (bcIndex B.H y) (bcIndex B.W x) (bcIndex B.C c)) } := by
  unfold broadcastOp
  rw [hH, hW, hC]

/-- Helper: broadcastOp either succeeds or raises the broadcast
ValueError; it raises no other message. -/
theorem broadcastOp_ok_or (f : ℚ → ℚ → ℚ) (A B : Image) :
    (∃ out, broadcastOp f A B = .ok out)
    ∨ broadcastOp f A B = .error broadcastErrorMsg := by
  unfold broadcastOp
  cases broadcastDim A.H B.H with
  | none => exact Or.inr rfl
  | some dH =>
    cases broadcastDim A.W B.W with
    | none => exact Or.inr rfl
    | some dW =>
      cases broadcastDim A.C B.C with
      | none => exact Or.inr rfl
      | some dC => exact Or.inl ⟨_, rfl⟩

/-- Helper: bind on a success. -/
theorem except_bind_ok {α β : Type} (a : α) (f : α → Except String β) :
    (Except.ok a >>= f) = f a := rfl

/-- Helper: bind on a raised error. -/
theorem except_bind_error {α β : Type} (e : String) (f : α → Except String β) :
    ((Except.error e : Except String α) >>= f) = .error e := rfl

/-- Helper: a broadcast read at an in-range index is the index itself. -/
theorem bcIndex_lt (n i : Nat) (h : i < n) : bcIndex n i = i := by
  unfold bcIndex
  by_cases h1 : n = 1
  · rw [if_pos h1]
    omega
  · rw [if_neg h1]

/-- Helper: with four channels and a pool hit, AddCroppedBackground.call
is the broadcasting composite over the selected background - the
cropped patch when the crop succeeded, the random color plane when it
was abandoned. -/
theorem addCroppedBackground_eq_composite (image_filepaths : List Image)
    (box_size : Nat) (rgb_model : Bool) (rand_arg x_min y_min : Nat)
    (rand_color : Nat → ℚ) (image bg : Image)
    (hC : image.C = 4) (hra : image_filepaths[rand_arg]? = some bg) :
    addCroppedBackground image_filepaths box_size rgb_model rand_arg x_min y_min
      rand_color image
      = compositeOverBackground image
          (match crop_image box_size x_min y_min
              (if rgb_model then convertBGR2RGB bg else bg) with
           | none => { H := image.H, W := image.W, C := 3,
                       data := fun _ _ c => rand_color c }
           | some patch => patch) := by
  have h4 : ¬ (image.C ≠ 4) := by simp [hC]
  simp only [addCroppedBackground, if_neg h4, hra]

/-- Helper: the composite either succeeds or raises the broadcast
ValueError. -/
theorem compositeOverBackground_ok_or (image background1 : Image) :
    (∃ out, compositeOverBackground image background1 = .ok out)
    ∨ compositeOverBackground image background1 = .error broadcastErrorMsg := by
  unfold compositeOverBackground
  rcases broadcastOp_ok_or (fun a b => a * b) (oneMinusAlphaOf image) background1
    with ⟨b2, hb2⟩ | hb2
  · rw [hb2, except_bind_ok]
    rcases broadcastOp_ok_or (fun a b => a * b) (alphaOf image) (foregroundOf image)
      with ⟨f2, hf2⟩ | hf2
    · rw [hf2, except_bind_ok]
      rcases broadcastOp_ok_or (fun a b => a + b) f2 b2 with ⟨cp, hcp⟩ | hcp
      · rw [hcp, except_bind_ok]
        exact Or.inl ⟨cp, rfl⟩
      · rw [hcp, except_bind_error]
        exact Or.inr rfl
    · rw [hf2, except_bind_error]
      exact Or.inr rfl
  · rw [hb2, except_bind_error]
    exact Or.inr rfl

/-- Helper: compositing over a background whose dimensions equal the
input image and whose channel count is 3 - the random-color fallback
plane always, a cropped patch when box_size matches the input -
succeeds and blends pointwise on the in-range pixels. -/
theorem compositeOverBackground_matching (image B : Image)
    (hH : B.H = image.H) (hW : B.W = image.W) (hC3 : B.C = 3) :
    ∃ out, compositeOverBackground image B = .ok out
      ∧ out.H = image.H ∧ out.W = image.W ∧ out.C = 3
      ∧ ∀ y x c, y < image.H → x < image.W →
          out.data y x c
            = (image.data y x 3 / 255) * image.data y x c
              + (1 - image.data y x 3 / 255) * B.data y x c := by
  unfold compositeOverBackground broadcastOp
  simp only [oneMinusAlphaOf, alphaOf, foregroundOf, hH, hW, hC3,
    broadcastDim_self, broadcastDim_one_left, except_bind_ok]
  refine ⟨_, rfl, rfl, rfl, rfl, ?_⟩
  intro y x c hy hx
  simp only [bcIndex_lt image.H y hy, bcIndex_lt image.W x hx]
  simp [bcIndex]

/-- Four-channel 1 by 1 input used to exercise the success paths. -/
def c6img : Image := { H := 1, W := 1, C := 4, data := fun _ _ _ => 100 }

/-- Background image (3 by 3, three channels) for the pool. -/
def c6bg : Image := { H := 3, W := 3, C := 3, data := fun _ _ _ => 1 }

/-- 2 by 2 four-channel input for the broadcast counterexample. -/
def c6img2 : Image := { H := 2, W := 2, C := 4, data := fun _ _ _ => 100 }

/-- 4 by 4 three-channel pool image for the broadcast counterexample. -/
def c6bg4 : Image := { H := 4, W := 4, C := 3, data := fun _ _ _ => 1 }

/-- C6 counterexample: a four-channel 2 by 2 input composited over a
box_size 3 crop of a 4 by 4 pool image fails with the numpy broadcast
ValueError - a shape error raised although the channel count is exactly
4, whose message does not name the alpha channel - so with four
channels the error branch is still reachable and no composited image is
returned. -/
theorem c6_counterexample :
    c6img2.C = 4
    ∧ addCroppedBackground [c6bg4] 3 false 0 0 0 c1rc c6img2
        = .error broadcastErrorMsg
    ∧ broadcastErrorMsg ≠ alphaErrorMsg := by
  refine ⟨rfl, rfl, by decide⟩

/-- C6 amended: AddPlainBackground.call fails with the alpha-naming
shape error exactly when the channel count differs from 4 and returns a
composited image otherwise; AddCroppedBackground.call fails with the
alpha-naming error exactly when the channel count differs from 4, but
with four channels it can still fail with a different shape error - the
numpy broadcast ValueError - when the cropped patch dimensions differ
from the input; it returns a composited image when the crop was
abandoned (random-color fallback) or when the patch dimensions match
the input image and the background has three channels; and the
alpha-naming message names the alpha channel. -/
theorem c6_amended_alpha_check (background_color : Option (Nat → ℚ))
    (rc rc2 : Nat → ℚ) (image : Image) (image_filepaths : List Image)
    (box_size rand_arg x_min y_min : Nat) (rgb_model : Bool) (bg : Image)
    (hra : image_filepaths[rand_arg]? = some bg) :
    ((addPlainBackground background_color rc image = .error alphaErrorMsg)
      ↔ image.C ≠ 4)
    ∧ ((addCroppedBackground image_filepaths box_size rgb_model rand_arg
          x_min y_min rc2 image = .error alphaErrorMsg) ↔ image.C ≠ 4)
    ∧ (image.C = 4 →
        ∃ out, addPlainBackground background_color rc image = .ok out)
    ∧ (image.C = 4 →
        crop_image box_size x_min y_min
          (if rgb_model then convertBGR2RGB bg else bg) = none →
        ∃ out, addCroppedBackground image_filepaths box_size rgb_model rand_arg
          x_min y_min rc2 image = .ok out)
    ∧ (image.C = 4 → ∀ patch,
        crop_image box_size x_min y_min
          (if rgb_model then convertBGR2RGB bg else bg) = some patch →
        patch.H = image.H → patch.W = image.W → patch.C = 3 →
        ∃ out, addCroppedBackground image_filepaths box_size rgb_model rand_arg
          x_min y_min rc2 image = .ok out)
    ∧ ("alpha".data <:+: alphaErrorMsg.data) := by
  by_cases hC : image.C = 4
  · have h4 : ¬ (image.C ≠ 4) := by simp [hC]
    have heqc := addCroppedBackground_eq_composite image_filepaths box_size
      rgb_model rand_arg x_min y_min rc2 image bg hC hra
    refine ⟨?_, ?_, ?_, ?_, ?_, by decide⟩
    · simp [addPlainBackground, if_neg h4, hC]
    · rw [heqc]
      constructor
      · intro hfail
        rcases compositeOverBackground_ok_or image
            (match crop_image box_size x_min y_min
                (if rgb_model then convertBGR2RGB bg else bg) with
             | none => { H := image.H, W := image.W, C := 3,
                         data := fun _ _ c => rc2 c }
             | some patch => patch) with ⟨out, hok⟩ | herr
        · rw [hok] at hfail
          exact Except.noConfusion hfail
        · rw [herr] at hfail
          have hmsg : broadcastErrorMsg = alphaErrorMsg := by
            injection hfail
          exact absurd hmsg (by decide)
      · intro hne
        exact absurd hC hne
    · intro _
      simp only [addPlainBackground, if_neg h4]
      exact ⟨_, rfl⟩
    · intro _ hnone
      obtain ⟨out, hok, _, _, _, _⟩ := compositeOverBackground_matching image
        { H := image.H, W := image.W, C := 3, data := fun _ _ c => rc2 c }
        rfl rfl rfl
      refine ⟨out, ?_⟩
      rw [heqc, hnone]
      exact hok
    · intro _ patch hsome hpH hpW hpC
      obtain ⟨out, hok, _, _, _, _⟩ :=
        compositeOverBackground_matching image patch hpH hpW hpC
      refine ⟨out, ?_⟩
      rw [heqc, hsome]
      exact hok
  · refine ⟨?_, ?_, ?_, ?_, ?_, by decide⟩
    · simp [addPlainBackground, hC]
    · simp [addCroppedBackground, hC]
    · intro h
      exact absurd h hC
    · intro h
      exact absurd h hC
    · intro h
      exact absurd h hC

/-- Witness for C6 amended at a concrete four-channel 1 by 1 image,
box_size 1 and a one-element pool holding a 3 by 3 background. -/
theorem c6_amended_alpha_check_witness :
    ((addPlainBackground none c1rc c6img = .error alphaErrorMsg)
      ↔ c6img.C ≠ 4)
    ∧ ((addCroppedBackground [c6bg] 1 false 0 0 0 c1rc c6img
          = .error alphaErrorMsg) ↔ c6img.C ≠ 4)
    ∧ (c6img.C = 4 → ∃ out, addPlainBackground none c1rc c6img = .ok out)
    ∧ (c6img.C = 4 →
        crop_image 1 0 0 (if false then convertBGR2RGB c6bg else c6bg) = none →
        ∃ out, addCroppedBackground [c6bg] 1 false 0 0 0 c1rc c6img = .ok out)
    ∧ (c6img.C = 4 → ∀ patch,
        crop_image 1 0 0 (if false then convertBGR2RGB c6bg else c6bg)
          = some patch →
        patch.H = c6img.H → patch.W = c6img.W → patch.C = 3 →
        ∃ out, addCroppedBackground [c6bg] 1 false 0 0 0 c1rc c6img = .ok out)
    ∧ ("alpha".data <:+: alphaErrorMsg.data) :=
  c6_amended_alpha_check none c1rc c1rc c6img [c6bg] 1 0 0 0 false c6bg rfl

/-- Background of height 5 and width 10: with box_size 5 it is not
smaller than the crop size in either dimension. -/
def c7bg : Image := { H := 5, W := 10, C := 3, data := fun _ _ _ => 1 }

/-- C7 counterexample: the claim says _crop_image yields no patch exactly
when the background is smaller than the crop size in either dimension;
here the background (5 by 10) is not smaller than box_size 5 in either
dimension, yet _crop_image returns None, because the source compares
with greater-or-equal. -/
theorem c7_counterexample :
    crop_image 5 0 0 c7bg = none ∧ ¬ (c7bg.H < 5 ∨ c7bg.W < 5) := by
  exact ⟨rfl, by decide⟩

/-- C7 amended: _crop_image yields no patch exactly when box_size is
greater than or equal to either background dimension (equality
included); when the background strictly exceeds box_size in both
dimensions the patch is the box_size-sized square sub-image at the
drawn offset; AddCroppedBackground.call composites over the random
fallback color when the crop was abandoned, and over the patch when
the crop succeeded and the patch dimensions match the input image with
a three-channel background - for other patch dimensions the numpy
broadcast of line 260 raises instead, see the C6 counterexample. -/
theorem c7_amended_fallback (box_size x_min y_min : Nat) (bg : Image)
    (image_filepaths : List Image) (rand_arg : Nat) (rand_color : Nat → ℚ)
    (image : Image)
    (hC : image.C = 4) (hra : image_filepaths[rand_arg]? = some bg) :
    (crop_image box_size x_min y_min bg = none
      ↔ box_size ≥ bg.H ∨ box_size ≥ bg.W)
    ∧ (box_size < bg.H ∧ box_size < bg.W →
        ∃ patch, crop_image box_size x_min y_min bg = some patch
          ∧ patch.H = box_size ∧ patch.W = box_size
          ∧ ∀ y x c, patch.data y x c = bg.data (y_min + y) (x_min + x) c)
    ∧ (crop_image box_size x_min y_min bg = none →
        ∃ out, addCroppedBackground image_filepaths box_size false rand_arg
            x_min y_min rand_color image = .ok out
          ∧ ∀ y x c, y < image.H → x < image.W →
              out.data y x c
                = (image.data y x 3 / 255) * image.data y x c
                  + (1 - image.data y x 3 / 255) * rand_color c)
    ∧ (∀ patch, crop_image box_size x_min y_min bg = some patch →
        patch.H = image.H → patch.W = image.W → patch.C = 3 →
        ∃ out, addCroppedBackground image_filepaths box_size false rand_arg
            x_min y_min rand_color image = .ok out
          ∧ ∀ y x c, y < image.H → x < image.W →
              out.data y x c
                = (image.data y x 3 / 255) * image.data y x c
                  + (1 - image.data y x 3 / 255) * patch.data y x c) := by
  have hguard : ¬ (y_min > y_min + box_size ∨ x_min > x_min + box_size) := by
    omega
  have heqc := addCroppedBackground_eq_composite image_filepaths box_size
    false rand_arg x_min y_min rand_color image bg hC hra
  refine ⟨?_, ?_, ?_, ?_⟩
  · by_cases hcond : box_size ≥ bg.H ∨ box_size ≥ bg.W
    · constructor
      · intro _
        exact hcond
      · intro _
        simp [crop_image, hcond]
    · constructor
      · intro h
        exfalso
        simp [crop_image, hcond, hguard] at h
      · intro h
        exact absurd h hcond
  · intro hlt
    have hcond : ¬ (box_size ≥ bg.H ∨ box_size ≥ bg.W) := by omega
    refine ⟨{ H := y_min + box_size - y_min, W := x_min + box_size - x_min,
              C := bg.C,
              data := fun y x c => bg.data (y_min + y) (x_min + x) c },
            ?_, ?_, ?_, fun y x c => rfl⟩
    · simp [crop_image, hcond, hguard]
    · show y_min + box_size - y_min = box_size
      omega
    · show x_min + box_size - x_min = box_size
      omega
  · intro hnone
    have hnone2 : crop_image box_size x_min y_min
        (if false then convertBGR2RGB bg else bg) = none := hnone
    obtain ⟨out, hok, _, _, _, hdata⟩ := compositeOverBackground_matching image
      { H := image.H, W := image.W, C := 3, data := fun _ _ c => rand_color c }
      rfl rfl rfl
    refine ⟨out, ?_, hdata⟩
    rw [heqc, hnone2]
    exact hok
  · intro patch hsome hpH hpW hpC
    have hsome2 : crop_image box_size x_min y_min
        (if false then convertBGR2RGB bg else bg) = some patch := hsome
    obtain ⟨out, hok, _, _, _, hdata⟩ :=
      compositeOverBackground_matching image patch hpH hpW hpC
    refine ⟨out, ?_, hdata⟩
    rw [heqc, hsome2]
    exact hok

/-- Witness for C7 amended, at box_size 1, background c6bg, pool of one
image and the four-channel 1 by 1 input c6img, whose dimensions match
the cropped patch. -/
theorem c7_amended_fallback_witness :
    (crop_image 1 0 0 c6bg = none ↔ 1 ≥ c6bg.H ∨ 1 ≥ c6bg.W)
    ∧ (1 < c6bg.H ∧ 1 < c6bg.W →
        ∃ patch, crop_image 1 0 0 c6bg = some patch
          ∧ patch.H = 1 ∧ patch.W = 1
          ∧ ∀ y x c, patch.data y x c = c6bg.data (0 + y) (0 + x) c)
    ∧ (crop_image 1 0 0 c6bg = none →
        ∃ out, addCroppedBackground [c6bg] 1 false 0 0 0 c1rc c6img = .ok out
          ∧ ∀ y x c, y < c6img.H → x < c6img.W →
              out.data y x c
                = (c6img.data y x 3 / 255) * c6img.data y x c
                  + (1 - c6img.data y x 3 / 255) * c1rc c)
    ∧ (∀ patch, crop_image 1 0 0 c6bg = some patch →
        patch.H = c6img.H → patch.W = c6img.W → patch.C = 3 →
        ∃ out, addCroppedBackground [c6bg] 1 false 0 0 0 c1rc c6img = .ok out
          ∧ ∀ y x c, y < c6img.H → x < c6img.W →
              out.data y x c
                = (c6img.data y x 3 / 255) * c6img.data y x c
                  + (1 - c6img.data y x 3 / 255) * patch.data y x c) :=
  c7_amended_fallback 1 0 0 c6bg [c6bg] 0 c1rc c6img rfl rfl

/-- One crop trial draw of RandomImageCrop.call:
w = random.uniform(0.3 * width, width),
h = random.uniform(0.3 * height, height),
left = random.uniform(width - w), top = random.uniform(height - h). -/
structure Trial where
  w : ℚ
  h : ℚ
  left : ℚ
  top : ℚ

/-- Integer rectangle (x1, y1, x2, y2). -/
structure Rect where
  x1 : ℤ
  y1 : ℤ
  x2 : ℤ
  y2 : ℤ

/-- rect = np.array([int(left), int(top), int(left + w), int(top + h)]).
Python int() truncates toward zero, which equals floor for the
nonnegative draws made here. -/
def trialRect (t : Trial) : Rect :=
  { x1 := ⌊t.left⌋, y1 := ⌊t.top⌋,
    x2 := ⌊t.left + t.w⌋, y2 := ⌊t.top + t.h⌋ }

/-- Numpy basic slicing image[rect1:rect3, rect0:rect2, :] for the
nonnegative bounds produced by trialRect: start and stop are clamped to
the axis length. -/
def cropToRect (image : Image) (r : Rect) : Image :=
  let y1 := min r.y1.toNat image.H
  let y2 := min r.y2.toNat image.H
  let x1 := min r.x1.toNat image.W
  let x2 := min r.x2.toNat image.W
  { H := y2 - y1, W := x2 - x1, C := image.C,
    data := fun y x c => image.data (y1 + y) (x1 + x) c }

/-- Sampling mode drawn from RandomImageCrop.sample_options: Python None
(use the entire image) or a pair of optional IoU bounds. -/
inductive Mode where
  | identity
  | iou (min_iou max_iou : Option ℚ)

/-- Draws of one iteration of the outer while-loop of
RandomImageCrop.call: the chosen mode and the trial draw sequence fed to
its for-loop. -/
structure Round where
  mode : Mode
  trials : Nat → Trial

/-- The for-loop body of RandomImageCrop.call, starting at trial index
start with the given remaining iteration count (the source runs
range(50)): a trial whose h / w lies outside [0.5, 2] is rejected and
the loop continues; otherwise the integer rectangle is built,
current_image is cut from it, and the function returns image - the
source line is return image, so current_image is dead. -/
def runTrials (image : Image) (trials : Nat → Trial) : Nat → Nat → Option Image
  | _, 0 => none
  | start, fuel + 1 =>
    let t := trials start
    if t.h / t.w < 1/2 ∨ t.h / t.w > 2 then
      runTrials image trials (start + 1) fuel
    else
      let rect := trialRect t
      let current_image := cropToRect image rect
      some image

/-- Number of trials the for-loop draws before returning or exhausting
its iteration budget. -/
def trialsUsed (trials : Nat → Trial) : Nat → Nat → Nat
  | _, 0 => 0
  | start, fuel + 1 =>
    let t := trials start
    if t.h / t.w < 1/2 ∨ t.h / t.w > 2 then
      1 + trialsUsed trials (start + 1) fuel
    else 1

/-- One while-iteration: the for-loop over range(50). -/
def runRound (image : Image) (r : Round) : Option Image :=
  runTrials image r.trials 0 50

/-- RandomImageCrop.call with its random draws made explicit: the list
holds, for each iteration the while-loop reaches, that iteration's mode
and trial draws. The result none means the provided draws were exhausted
with the loop still running, since the source keeps looping until some
iteration returns. -/
def randomImageCrop (image : Image) : List Round → Option Image
  | [] => none
  | r :: rest =>
    match r.mode with
    | .identity => some image
    | .iou _ _ =>
      match runRound image r with
      | some result => some result
      | none => randomImageCrop image rest

/-- A 4 by 4 input image for the crop claims. -/
def c2img : Image := { H := 4, W := 4, C := 3, data := fun _ _ _ => 7 }

/-- Trial with h / w = 10, rejected by the aspect-ratio check. -/
def c2badTrial : Trial := { w := 1, h := 10, left := 0, top := 0 }

/-- Round whose 50 trials are all rejected. -/
def c2badRound : Round :=
  { mode := .iou (some (1/10)) none, trials := fun _ => c2badTrial }

/-- Round that draws the identity mode. -/
def c2idRound : Round := { mode := .identity, trials := fun _ => c2badTrial }

/-- Helper: a while-iteration with an IoU mode whose 50 trials were all
rejected continues with the remaining draws. -/
theorem randomImageCrop_cons_exhausted (image : Image) (r : Round)
    (rest : List Round) (mi ma : Option ℚ) (hmode : r.mode = Mode.iou mi ma)
    (hnone : runRound image r = none) :
    randomImageCrop image (r :: rest) = randomImageCrop image rest := by
  simp only [randomImageCrop, hmode, hnone]

/-- Helper: a while-iteration whose mode is Python None returns the
input unchanged. -/
theorem randomImageCrop_cons_identity (image : Image) (r : Round)
    (rest : List Round) (hmode : r.mode = Mode.identity) :
    randomImageCrop image (r :: rest) = some image := by
  simp only [randomImageCrop, hmode]

/-- Helper: a while-iteration with an IoU mode whose for-loop returned a
value commits that value. -/
theorem randomImageCrop_cons_hit (image : Image) (r : Round)
    (rest : List Round) (mi ma : Option ℚ) (result : Image)
    (hmode : r.mode = Mode.iou mi ma) (hsome : runRound image r = some result) :
    randomImageCrop image (r :: rest) = some result := by
  simp only [randomImageCrop, hmode, hsome]

/-- Helper: every trial of c2badRound is rejected, whatever the fuel. -/
theorem c2bad_runTrials_none :
    ∀ start fuel, runTrials c2img (fun _ => c2badTrial) start fuel = none := by
  have hcond : c2badTrial.h / c2badTrial.w < 1/2
      ∨ c2badTrial.h / c2badTrial.w > 2 := by
    right
    norm_num [c2badTrial]
  intro start fuel
  induction fuel generalizing start with
  | zero => rfl
  | succ f ih =>
    simp only [runTrials]
    rw [if_pos hcond]
    exact ih (start + 1)

/-- Helper: the bad round exhausts all 50 of its trials. -/
theorem c2_runRound_none : runRound c2img c2badRound = none := by
  show runTrials c2img (fun _ => c2badTrial) 0 50 = none
  exact c2bad_runTrials_none 0 50

/-- C2 counterexample: a round whose 50 trials are all rejected does not
make the call terminate with the unmodified input - with no further
draws the loop is still running (result none, not some input), and with
one further identity-mode draw the call consumes a second mode, showing
the while-loop restarted instead of returning after the 50 rejections. -/
theorem c2_counterexample :
    runRound c2img c2badRound = none
    ∧ randomImageCrop c2img [c2badRound] ≠ some c2img
    ∧ randomImageCrop c2img [c2badRound, c2idRound] = some c2img := by
  refine ⟨c2_runRound_none, ?_, ?_⟩
  · intro h
    have h0 : randomImageCrop c2img [c2badRound] = none := by
      rw [randomImageCrop_cons_exhausted c2img c2badRound []
        (some (1/10)) none rfl c2_runRound_none]
      rfl
    rw [h0] at h
    exact Option.noConfusion h
  · rw [randomImageCrop_cons_exhausted c2img c2badRound [c2idRound]
      (some (1/10)) none rfl c2_runRound_none]
    exact randomImageCrop_cons_identity c2img c2idRound [] rfl

/-- Helper: the for-loop draws at most its iteration budget of trials. -/
theorem trialsUsed_le (trials : Nat → Trial) :
    ∀ start fuel, trialsUsed trials start fuel ≤ fuel := by
  intro start fuel
  induction fuel generalizing start with
  | zero => exact Nat.le_refl 0
  | succ f ih =>
    simp only [trialsUsed]
    by_cases hcond : (trials start).h / (trials start).w < 1/2
        ∨ (trials start).h / (trials start).w > 2
    · rw [if_pos hcond]
      have := ih (start + 1)
      omega
    · rw [if_neg hcond]
      omega

/-- C2 amended: RandomImageCrop.call draws at most 50 trials for the
chosen sampling mode, but when all 50 are rejected the call does not
return the input: the outer while-loop draws a fresh mode and starts
over, and the unmodified input is returned when the identity mode is
drawn, so the number of trials per call is not bounded. -/
theorem c2_amended_loop (image : Image) (r : Round) (rest : List Round)
    (t : Nat → Trial) (mi ma : Option ℚ) :
    trialsUsed t 0 50 ≤ 50
    ∧ (r.mode = Mode.iou mi ma → runRound image r = none →
        randomImageCrop image (r :: rest) = randomImageCrop image rest)
    ∧ randomImageCrop image ({ mode := Mode.identity, trials := t } :: rest)
        = some image := by
  refine ⟨trialsUsed_le t 0 50, ?_, ?_⟩
  · intro hmode hnone
    exact randomImageCrop_cons_exhausted image r rest mi ma hmode hnone
  · exact randomImageCrop_cons_identity image _ rest rfl

/-- Witness for C2 amended at the all-rejected round followed by an
identity round. -/
theorem c2_amended_loop_witness :
    trialsUsed (fun _ => c2badTrial) 0 50 ≤ 50
    ∧ randomImageCrop c2img (c2badRound :: [c2idRound])
        = randomImageCrop c2img [c2idRound]
    ∧ randomImageCrop c2img
        ({ mode := Mode.identity, trials := fun _ => c2badTrial } :: [c2idRound])
        = some c2img := by
  have h := c2_amended_loop c2img c2badRound [c2idRound]
    (fun _ => c2badTrial) (some (1/10)) none
  exact ⟨h.1, h.2.1 rfl c2_runRound_none, h.2.2⟩

/-- A 4 by 4 input image for the accepted-trial claim. -/
def c3img : Image := { H := 4, W := 4, C := 3, data := fun _ _ _ => 5 }

/-- Accepted trial: w = 2, h = 2, aspect ratio 1, offset (0, 0). -/
def c3trial : Trial := { w := 2, h := 2, left := 0, top := 0 }

/-- Round whose first trial is the accepted c3trial. -/
def c3round : Round := { mode := .iou none none, trials := fun _ => c3trial }

/-- Helper: the first trial of c3round passes the aspect check, so the
for-loop returns immediately - with the original image. -/
theorem c3_runRound_hit : runRound c3img c3round = some c3img := by
  have hcond : ¬ (c3trial.h / c3trial.w < 1/2 ∨ c3trial.h / c3trial.w > 2) := by
    norm_num [c3trial]
  show runTrials c3img (fun _ => c3trial) 0 (49 + 1) = some c3img
  simp only [runTrials]
  rw [if_neg hcond]

/-- C3: the first trial of this round passes the aspect check, the
constructed rectangle is (0, 0, 2, 2) - a proper 2 by 2 sub-rectangle of
the 4 by 4 input - yet the call returns the original image rather than
the cropped sub-image: the source computes current_image and then
returns image, contradicting its own docstring (Crops and returns
random patch of an image). -/
theorem c3_returns_original_not_crop :
    randomImageCrop c3img [c3round] = some c3img
    ∧ (trialRect c3trial).x1 = 0 ∧ (trialRect c3trial).y1 = 0
    ∧ (trialRect c3trial).x2 = 2 ∧ (trialRect c3trial).y2 = 2
    ∧ (cropToRect c3img (trialRect c3trial)).H = 2
    ∧ c3img.H = 4
    ∧ randomImageCrop c3img [c3round]
        ≠ some (cropToRect c3img (trialRect c3trial)) := by
  have hx1 : (trialRect c3trial).x1 = 0 := by norm_num [trialRect, c3trial]
  have hy1 : (trialRect c3trial).y1 = 0 := by norm_num [trialRect, c3trial]
  have hx2 : (trialRect c3trial).x2 = 2 := by norm_num [trialRect, c3trial]
  have hy2 : (trialRect c3trial).y2 = 2 := by norm_num [trialRect, c3trial]
  have hit : randomImageCrop c3img [c3round] = some c3img :=
    randomImageCrop_cons_hit c3img c3round [] none none c3img rfl c3_runRound_hit
  have hH : (cropToRect c3img (trialRect c3trial)).H = 2 := by
    show min (trialRect c3trial).y2.toNat c3img.H
        - min (trialRect c3trial).y1.toNat c3img.H = 2
    rw [hy2, hy1]
    decide
  refine ⟨hit, hx1, hy1, hx2, hy2, hH, rfl, ?_⟩
  intro h
  have h1 : c3img = cropToRect c3img (trialRect c3trial) :=
    Option.some.inj (hit.symm.trans h)
  have h2 : c3img.H = (cropToRect c3img (trialRect c3trial)).H :=
    congrArg Image.H h1
  rw [hH] at h2
  exact absurd h2 (by decide)

/-- A directory entry, split as by os.path.splitext: filename stem and
extension. -/
structure DirFile where
  stem : String
  ext : String
deriving DecidableEq

/-- A path produced by os.path.join(root, file): kept as its two
components. -/
abbrev JoinedPath := String × DirFile

/-- Python self.path of HandKeypoints: either a single string or a list
of folder roots. -/
inductive PyPath where
  | str (p : String)
  | list (folders : List String)

/-- os.path.join applied to a list first argument: Python raises
TypeError, whatever the file. -/
def ospath_join_list (folders : List String) (file : DirFile) :
    Except String JoinedPath :=
  .error "TypeError: expected str, bytes or os.PathLike object, not list"

/-- Single-root branch of HandKeypoints._load_paths: scan the directory
listing in order, appending files with extension .jpg to the image
paths and files with extension .json to the label paths, each joined
with the root. -/
def load_paths_str (path : String) :
    List DirFile → List JoinedPath × List JoinedPath
  | [] => ([], [])
  | file :: rest =>
    let (image_paths, label_paths) := load_paths_str path rest
    if file.ext = ".jpg" then ((path, file) :: image_paths, label_paths)
    else if file.ext = ".json" then (image_paths, (path, file) :: label_paths)
    else (image_paths, label_paths)

/-- Files of one folder in the multi-root branch of _load_paths: the
source joins each recognized file with `path` - the whole list - rather
than with the containing folder, so the join raises on the first
recognized file. -/
def load_paths_list_files (whole : List String) :
    List DirFile → Except String (List JoinedPath × List JoinedPath)
  | [] => .ok ([], [])
  | file :: rest =>
    if file.ext = ".jpg" then do
      let p ← ospath_join_list whole file
      let (image_paths, label_paths) ← load_paths_list_files whole rest
      .ok (p :: image_paths, label_paths)
    else if file.ext = ".json" then do
      let p ← ospath_join_list whole file
      let (image_paths, label_paths) ← load_paths_list_files whole rest
      .ok (image_paths, p :: label_paths)
    else load_paths_list_files whole rest

/-- Multi-root branch of _load_paths: iterate the listed folders. -/
def load_paths_list (whole : List String) (listdir : String → List DirFile) :
    List String → Except String (List JoinedPath × List JoinedPath)
  | [] => .ok ([], [])
  | folder :: rest => do
    let (i1, l1) ← load_paths_list_files whole (listdir folder)
    let (i2, l2) ← load_paths_list whole listdir rest
    .ok (i1 ++ i2, l1 ++ l2)

/-- HandKeypoints._load_paths: dispatch on whether self.path is a
string. `listdir` models os.listdir. -/
def load_paths (listdir : String → List DirFile) :
    PyPath → Except String (List JoinedPath × List JoinedPath)
  | .str p => .ok (load_paths_str p (listdir p))
  | .list folders => load_paths_list folders listdir folders

/-- Positional pairing done by _to_list_of_dictionaries over the
preloaded arrays: sample arg takes hands[arg] and keypoints[arg], and
indexing keypoints past its length raises IndexError. -/
def zipSamples {α β : Type} : List α → List β → Except String (List (α × β))
  | [], _ => .ok []
  | _ :: _, [] => .error "IndexError: index out of bounds"
  | h :: hs, k :: ks => do
    let rest ← zipSamples hs ks
    .ok ((h, k) :: rest)

/-- HandKeypoints.load_data. `loadImage` models load_image composed with
resize_image (external collaborators); `parseLabel` models reading a
label file and extracting its hand_pts field. The train split pairs
hands and keypoints by position; other splits carry no keypoints. -/
def load_data {α β : Type} (listdir : String → List DirFile)
    (loadImage : JoinedPath → α) (parseLabel : JoinedPath → β)
    (split : String) (path : PyPath) : Except String (List (α × Option β)) := do
  let (image_paths, label_paths) ← load_paths listdir path
  let hands := image_paths.map loadImage
  if split = "train" then do
    let keypoints := label_paths.map parseLabel
    let samples ← zipSamples hands keypoints
    .ok (samples.map fun s => (s.1, some s.2))
  else
    .ok (hands.map fun h => (h, none))

/-- Directory listing in which the image stems and the label stems
appear in opposite orders: a.jpg, b.jpg, b.json, a.json. -/
def c4listdir : String → List DirFile := fun _ =>
  [{ stem := "a", ext := ".jpg" }, { stem := "b", ext := ".jpg" },
   { stem := "b", ext := ".json" }, { stem := "a", ext := ".json" }]

/-- Image loader that records provenance: the file stem. -/
def c4load : JoinedPath → String := fun jp => jp.2.stem

/-- Label parser that records provenance: the file stem. -/
def c4parse : JoinedPath → String := fun jp => jp.2.stem

/-- C4 counterexample: on a directory holding a.jpg, b.jpg, b.json,
a.json in that listing order, sample 0 pairs the image of stem a with
the keypoints parsed from the label of stem b - pairing is positional,
not by stem, so the keypoints of sample 0 do not originate from the
label sharing the image stem. -/
theorem c4_counterexample :
    load_data c4listdir c4load c4parse "train" (.str "d")
      = .ok [("a", some "b"), ("b", some "a")]
    ∧ ("b" : String) ≠ "a" :=
  ⟨rfl, by decide⟩

/-- Helper: zipSamples is the positional zip when there are at least as
many labels as images. -/
theorem zipSamples_eq_zip {α β : Type} :
    ∀ (hs : List α) (ks : List β), hs.length ≤ ks.length →
      zipSamples hs ks = .ok (hs.zip ks)
  | [], _, _ => rfl
  | h :: hs, [], hle => by simp at hle
  | h :: hs, k :: ks, hle => by
    have ih := zipSamples_eq_zip hs ks (Nat.le_of_succ_le_succ hle)
    simp only [zipSamples, ih, List.zip_cons_cons]
    rfl

/-- Helper: mapping the pair constructor over a zip of mapped lists is a
zipWith. -/
theorem map_zip_map_eq_zipWith {α β γ δ : Type} (f : α → γ) (g : β → δ) :
    ∀ (xs : List α) (ys : List β),
      ((xs.map f).zip (ys.map g)).map (fun s => (s.1, some s.2))
        = List.zipWith (fun x y => (f x, some (g y))) xs ys
  | [], ys => by simp
  | x :: xs, [] => by simp
  | x :: xs, y :: ys => by
    simp only [List.map_cons, List.zip_cons_cons, List.zipWith_cons_cons]
    rw [map_zip_map_eq_zipWith f g xs ys]

/-- C4 amended: in the train split the loader pairs positionally -
sample i holds the image of the i-th .jpg entry and the keypoints
parsed from the i-th .json entry of the listing - and the keypoints
share the image stem exactly on listings whose filtered stem sequences
coincide position by position. -/
theorem c4_amended_positional {α β : Type} (listdir : String → List DirFile)
    (p : String) (loadImage : JoinedPath → α) (parseLabel : JoinedPath → β)
    (hlen : (load_paths_str p (listdir p)).1.length
      = (load_paths_str p (listdir p)).2.length) :
    load_data listdir loadImage parseLabel "train" (.str p)
      = .ok (List.zipWith (fun ip lp => (loadImage ip, some (parseLabel lp)))
          (load_paths_str p (listdir p)).1 (load_paths_str p (listdir p)).2)
    ∧ ((load_paths_str p (listdir p)).1.map (fun jp => jp.2.stem)
        = (load_paths_str p (listdir p)).2.map (fun jp => jp.2.stem) →
      ∀ i : Nat,
        (((load_paths_str p (listdir p)).2[i]?).map fun jp => jp.2.stem)
          = (((load_paths_str p (listdir p)).1[i]?).map fun jp => jp.2.stem)) := by
  constructor
  · have hz := zipSamples_eq_zip
      ((load_paths_str p (listdir p)).1.map loadImage)
      ((load_paths_str p (listdir p)).2.map parseLabel)
      (by simp [hlen])
    show (zipSamples
        ((load_paths_str p (listdir p)).1.map loadImage)
        ((load_paths_str p (listdir p)).2.map parseLabel)) >>= (fun samples =>
          .ok (samples.map fun s => (s.1, some s.2))) = _
    rw [hz]
    show Except.ok ((((load_paths_str p (listdir p)).1.map loadImage).zip
        ((load_paths_str p (listdir p)).2.map parseLabel)).map
          fun s => (s.1, some s.2)) = _
    rw [map_zip_map_eq_zipWith]
  · intro hmap i
    have h0 := congrArg (fun l => l[i]?) hmap
    simp only [List.getElem?_map] at h0
    exact h0.symm

/-- Directory listing whose image and label stems are aligned. -/
def c4alignedListdir : String → List DirFile := fun _ =>
  [{ stem := "a", ext := ".jpg" }, { stem := "a", ext := ".json" },
   { stem := "b", ext := ".jpg" }, { stem := "b", ext := ".json" }]

/-- Witness for C4 amended on an aligned listing. -/
theorem c4_amended_positional_witness :
    load_data c4alignedListdir c4load c4parse "train" (.str "d")
      = .ok (List.zipWith (fun ip lp => (c4load ip, some (c4parse lp)))
          (load_paths_str "d" (c4alignedListdir "d")).1
          (load_paths_str "d" (c4alignedListdir "d")).2)
    ∧ ∀ i : Nat,
        (((load_paths_str "d" (c4alignedListdir "d")).2[i]?).map
            fun jp => jp.2.stem)
          = (((load_paths_str "d" (c4alignedListdir "d")).1[i]?).map
            fun jp => jp.2.stem) := by
  have h := c4_amended_positional c4alignedListdir "d" c4load c4parse rfl
  exact ⟨h.1, h.2 rfl⟩

/-- Listing of a single root holding one image file. -/
def c5listdir : String → List DirFile := fun _ => [{ stem := "a", ext := ".jpg" }]

/-- C5: when constructed with a list of directory roots, _load_paths
joins each recognized file with `path` - the whole list - instead of the
containing folder, so the call raises TypeError on the first image or
label file found and never returns paths under the containing roots. -/
theorem c5_list_of_roots_type_error :
    load_paths c5listdir (.list ["root1"])
      = .error "TypeError: expected str, bytes or os.PathLike object, not list" :=
  rfl

/-- AddOcclusion.call: max_distance = np.max((height, width)) *
self.max_radius_scale. -/
def maxDistance (height width : Nat) (max_radius_scale : ℚ) : ℚ :=
  (max height width : Nat) * max_radius_scale

/-- AddOcclusion.call: angle_between_vertices = 2 * np.pi /
num_vertices. `two_pi` stands for the constant 2 * np.pi, kept as a
parameter so the development stays in exact arithmetic; theorems assume
it positive, which holds of the real value. -/
def angle_between_vertices (two_pi : ℚ) (num_vertices : Nat) : ℚ :=
  two_pi / num_vertices

/-- AddOcclusion.call: angle = initial_angle + vertex_arg *
angle_between_vertices. -/
def vertexAngle (initial_angle two_pi : ℚ) (num_vertices vertex_arg : Nat) : ℚ :=
  initial_angle + vertex_arg * angle_between_vertices two_pi num_vertices

/-- C8: with num_vertices drawn by np.random.randint(3, 7) - contract:
at least 3 and below 7 - the vertex count lies in [3, 6]; the vertex
angles initial_angle + i * (2 pi / num_vertices) strictly increase with
the vertex index, so the vertex sequence is listed in increasing angle
order; and each per-vertex radius drawn by
np.random.uniform(0, max_distance) lies in
[0, max(H, W) * max_radius_scale]. -/
theorem c8_occlusion_polygon (height width : Nat)
    (max_radius_scale two_pi initial_angle : ℚ) (num_vertices : Nat)
    (radius : Nat → ℚ)
    (hn : 3 ≤ num_vertices ∧ num_vertices < 7)
    (hpi : 0 < two_pi)
    (hr : ∀ i, 0 ≤ radius i
      ∧ radius i ≤ maxDistance height width max_radius_scale) :
    (3 ≤ num_vertices ∧ num_vertices ≤ 6)
    ∧ (∀ i j, i < j →
        vertexAngle initial_angle two_pi num_vertices i
          < vertexAngle initial_angle two_pi num_vertices j)
    ∧ (∀ i, 0 ≤ radius i
        ∧ radius i ≤ (max height width : Nat) * max_radius_scale) := by
  refine ⟨⟨hn.1, by omega⟩, ?_, ?_⟩
  · intro i j hij
    unfold vertexAngle angle_between_vertices
    have hnpos : (0 : ℚ) < num_vertices := by
      have h0 : 0 < num_vertices := by omega
      exact_mod_cast h0
    have hstep : 0 < two_pi / num_vertices := div_pos hpi hnpos
    have hcast : (i : ℚ) < j := by exact_mod_cast hij
    have hmul := mul_lt_mul_of_pos_right hcast hstep
    linarith
  · intro i
    exact hr i

/-- Witness for C8 at num_vertices 4, two_pi 7, zero radii, a 2 by 3
image and max_radius_scale one half. -/
theorem c8_occlusion_polygon_witness :
    (3 ≤ 4 ∧ 4 ≤ 6)
    ∧ (∀ i j, i < j → vertexAngle 0 7 4 i < vertexAngle 0 7 4 j)
    ∧ (∀ i : Nat, 0 ≤ (fun _ => (0 : ℚ)) i
        ∧ (fun _ => (0 : ℚ)) i ≤ (max 2 3 : Nat) * (1/2 : ℚ)) :=
  c8_occlusion_polygon 2 3 (1/2) 7 0 4 (fun _ => 0)
    (by omega) (by norm_num)
    (fun i => ⟨le_refl 0, by norm_num [maxDistance, show max 2 3 = 3 from rfl]⟩)

/-- Python attribute map of an object instance. -/
abbrev AttrMap := List (String × String)

/-- Python attribute read self.<attr>: AttributeError when absent. -/
def getattr (attrs : AttrMap) (attr : String) : Except String String :=
  match attrs.lookup attr with
  | some v => .ok v
  | none => .error ("AttributeError: " ++ attr)

/-- Modelled from the spec: the Processor base class lives in paz.core,
outside the provided sources; per spec section 4.1 a Processor is
constructed with a name and an optional probability and defines no
attribute named dtype. CastImage.__init__ also never calls the base
constructor, so when its body starts the fresh instance holds no
attributes at all. -/
def freshCastImageAttrs : AttrMap := []

/-- CastImage.__init__: the body is self.dtype = self.dtype, which reads
the dtype attribute before any assignment to it; the dtype argument is
never referenced. -/
def castImage_init (dtype : String) : Except String AttrMap := do
  let v ← getattr freshCastImageAttrs "dtype"
  .ok (("dtype", v) :: freshCastImageAttrs)

/-- C10: constructing CastImage(dtype) fails for every dtype argument:
the read of self.dtype raises AttributeError before any assignment, so
no instance can be created and CastImage.call is unreachable through
the public interface. -/
theorem c10_cast_image_init_fails (dtype : String) :
    castImage_init dtype = .error "AttributeError: dtype" := rfl
